import Mathlib

/-!
Shallow embedding of `composer/utils/remote_uploader.py`: the `RemoteUploader`
manager class and its worker function `_upload_file_to_object_store`. External
collaborators that are not part of the embedded source file (the retry policy
from `composer.utils.retrying`, URI parsing from `composer.utils.file_helpers`,
the MLFlow path constant, distributed rank and broadcast) are modelled from the
specification; each such definition carries a doc comment saying so.
-/

/-- Exceptions that can flow through the uploader. `objectStoreTransientError`
is the designated transient class that the retry policy retries; every other
constructor is terminal. -/
inductive Exc where
  | valueError (msg : String)
  | fileNotFoundError
  | fileExistsError (objectName : String)
  | objectStoreTransientError (code : Nat)
  | runtimeError (msg : String)
  deriving DecidableEq, Repr

/-- The transient-error predicate used by the retry policy: only
`ObjectStoreTransientError` is retried. -/
def isTransientExc : Exc → Bool
  | Exc.objectStoreTransientError _ => true
  | _ => false

/-- Modelled from the spec: the retry policy `composer.utils.retrying.retry`
is not under `src/`. Per section 4.3 it invokes the operation; on an error of
the transient class it retries until the attempt budget is exhausted and then
re-raises the last error; a non-matching error propagates on its first
occurrence; the operation receives its current retry index. The first argument
of the recursion is the number of attempts still allowed, the second the
current retry index; the state `σ` threads side effects an attempt performed
before failing. -/
def retryRun {σ : Type} (isTransient : Exc → Bool)
    (op : Nat → σ → Except Exc Unit × σ) :
    Nat → Nat → σ → Except Exc Unit × σ
  | 0, _, st => (Except.error (Exc.valueError "retry invoked with no attempts"), st)
  | n + 1, idx, st =>
    match op idx st with
    | (Except.ok u, st') => (Except.ok u, st')
    | (Except.error e, st') =>
      if isTransient e = true ∧ n ≠ 0 then
        retryRun isTransient op n (idx + 1) st'
      else
        (Except.error e, st')

/-- Modelled from the spec: entry point of the retry policy, with a total
attempt budget of `num_attempts` and retry indices starting at `0`. -/
def retry {σ : Type} (isTransient : Exc → Bool) (num_attempts : Nat)
    (op : Nat → σ → Except Exc Unit × σ) (st : σ) : Except Exc Unit × σ :=
  retryRun isTransient op num_attempts 0 st

/-- Environment a worker runs against: the outcome of the pre-upload
`get_object_size` probe on the destination name, the outcome of
`upload_object` on each retry attempt (`none` meaning success), the local
rank of the executing process, and the stagger configuration read from the
process environment at task-execution time (`none` when the variable is
unset). -/
structure WorkerEnv where
  probe : Except Exc Int
  upload_result : Nat → Option Exc
  local_rank : Nat
  stagger_env : Option Int

/-- Worker-visible state: the set of files currently in the staging area and
a ghost counter recording how many calls to `object_store.upload_object` have
been issued (used to state that a conflict fails before any upload is
attempted). -/
structure WorkerSt where
  staging : List String
  uploads_attempted : Nat
  deriving DecidableEq, Repr

/-- One call to `object_store.upload_object` followed on success by
`os.remove(local_file_path)` (the staged copy is deleted); on failure the
staging area is left as it was. -/
def upload_object_call (local_file_path : String) (env : WorkerEnv)
    (retry_index : Nat) (st : WorkerSt) : Except Exc Unit × WorkerSt :=
  let st1 : WorkerSt := { st with uploads_attempted := st.uploads_attempted + 1 }
  match env.upload_result retry_index with
  | some e => (Except.error e, st1)
  | none => (Except.ok (), { st1 with staging := st1.staging.erase local_file_path })

/-- One attempt of the inner `upload_file` closure of
`_upload_file_to_object_store`: on the first attempt with `overwrite = False`
it probes the destination size; `FileNotFoundError` from the probe is absorbed
and the upload proceeds; a size answer means the object exists and raises
`FileExistsError`; any other probe error propagates. Retried attempts skip
the probe. -/
def upload_file (remote_file_name local_file_path : String) (overwrite : Bool)
    (env : WorkerEnv) (retry_index : Nat) (st : WorkerSt) :
    Except Exc Unit × WorkerSt :=
  if retry_index = 0 ∧ overwrite = false then
    match env.probe with
    | Except.error Exc.fileNotFoundError =>
      upload_object_call local_file_path env retry_index st
    | Except.error e => (Except.error e, st)
    | Except.ok _ => (Except.error (Exc.fileExistsError remote_file_name), st)
  else
    upload_object_call local_file_path env retry_index st

/-- The stagger configuration value: `int(os.environ.get(COMPOSER_LOCAL_RANK_STAGGER_SECONDS, 0))`;
`none` models an unset variable, which defaults to `0`. -/
def staggerSeconds (stagger_env : Option Int) : Int :=
  stagger_env.getD 0

/-- The duration passed to `time.sleep` before the upload begins:
`local_rank * local_rank_stagger`. -/
def stagger_delay (local_rank : Nat) (stagger_env : Option Int) : Int :=
  (local_rank : Int) * staggerSeconds stagger_env

/-- Result of one full worker execution: the task outcome, the final state of
the staging area (with the ghost upload counter), and the stagger duration the
worker slept before uploading. -/
structure WorkerRun where
  result : Except Exc Unit
  final : WorkerSt
  slept : Int

/-- The worker body `_upload_file_to_object_store`: sleeps the stagger delay,
then runs the retry-wrapped `upload_file` attempt with the configured attempt
budget. (Backend construction is modelled as part of `WorkerEnv`; each worker
owns its own environment.) -/
def upload_file_to_object_store (remote_file_name local_file_path : String)
    (overwrite : Bool) (num_attempts : Nat) (env : WorkerEnv) (st : WorkerSt) :
    WorkerRun :=
  let r := retry isTransientExc num_attempts
    (upload_file remote_file_name local_file_path overwrite env) st
  { result := r.1, final := r.2,
    slept := stagger_delay env.local_rank env.stagger_env }

/-- A tracked handle (a `concurrent.futures.Future`): `resolved` says whether
`done()` returns true at the moment the manager inspects it, and `outcome` is
the eventual result that `exception()` reports once the handle resolves
(`none` for success, `some e` for a failure with exception `e`). The
embedding assumes every handle eventually resolves, which is the regime in
which the blocking `wait()` is specified. -/
structure Fut where
  resolved : Bool
  outcome : Option Exc
  deriving DecidableEq, Repr

/-- State of a `RemoteUploader` instance: the construction parameters, the
parse of the remote folder, the staging-area contents, the tracked futures in
submission order, and whether the executor pool has been shut down. -/
structure UploaderState where
  remote_folder : String
  is_dbfs : Bool
  path : String
  num_concurrent_uploads : Int
  num_attempts : Int
  staging : List String
  futures : List Fut
  closed : Bool
  deriving DecidableEq, Repr

/-- Splits a character list at the first occurrence of `:/`, returning the
characters before it and the characters after it, or `none` when there is no
such occurrence. -/
def splitScheme : List Char → Option (List Char × List Char)
  | [] => none
  | c :: rest =>
    if c = ':' then
      match rest with
      | '/' :: tail => some ([], tail)
      | _ => none
    else
      match splitScheme rest with
      | none => none
      | some (sch, p) => some (c :: sch, p)

/-- Tests whether `pat` is an initial segment of `s` (the semantics of
`str.startswith`). -/
def strStartsWith (s pat : String) : Bool :=
  go pat.toList s.toList
where
  go : List Char → List Char → Bool
    | [], _ => true
    | _ :: _, [] => false
    | p :: ps, c :: cs => p = c && go ps cs

/-- Modelled from the spec: `composer.utils.file_helpers.parse_uri` is not
under `src/`; the spec says construction parses the remote folder into a
backend kind and a remaining path. The scheme is everything before the first
`:/` and the remainder, stripped of leading slashes, is the path (the bucket
component is folded into the path; no embedded claim depends on it). -/
def parse_uri (uri : String) : String × String :=
  match splitScheme uri.toList with
  | none => ("", uri)
  | some (sch, p) =>
    (String.mk sch, String.mk (p.dropWhile (fun c => c = '/')))

/-- Modelled from the spec: the managed-platform tracking-path marker (the
MLFlow dbfs path constant from `composer.utils.object_store.mlflow_object_store`,
not under `src/`); a dbfs path starting with it takes the leader-resolve and
broadcast protocol, any other dbfs path is the governed-catalog variant. -/
def MLFLOW_DBFS_PATH_START : String := "databricks/mlflow-tracking/"

namespace RemoteUploader

/-- `RemoteUploader.__init__`: rejects `num_concurrent_uploads < 1` or
`num_attempts < 1` with a `ValueError`; otherwise records the bounds, parses
the remote folder, allocates an empty staging area and an empty future list,
and leaves the pool open. -/
def construct (remote_folder : String) (num_concurrent_uploads num_attempts : Int) :
    Except Exc UploaderState :=
  if num_concurrent_uploads < 1 ∨ num_attempts < 1 then
    Except.error (Exc.valueError
      "num_concurrent_uploads and num_attempts must be >= 1")
  else
    Except.ok
      { remote_folder := remote_folder
        is_dbfs := (parse_uri remote_folder).1 == "dbfs"
        path := (parse_uri remote_folder).2
        num_concurrent_uploads := num_concurrent_uploads
        num_attempts := num_attempts
        staging := []
        futures := []
        closed := false }

/-- `RemoteUploader.upload_file_async`: first copies the caller file into the
staging area under a fresh unique name (`shutil.copy2`), then submits the
task to the executor. `fresh_name` stands for the generated uuid name and
`fut` for the future the executor would return, carrying the eventual outcome
of the submitted task. Submission to a shut-down pool raises `RuntimeError`
after the staging copy has already been made. -/
def upload_file_async (s : UploaderState) (fresh_name : String) (fut : Fut) :
    Except Exc Fut × UploaderState :=
  let s1 : UploaderState := { s with staging := s.staging ++ [fresh_name] }
  if s1.closed then
    (Except.error (Exc.runtimeError "cannot schedule new futures after shutdown"), s1)
  else
    (Except.ok fut, { s1 with futures := s1.futures ++ [fut] })

/-- The traversal loop of `check_workers`: walk `self.futures` in order; a
handle whose `done()` is false is skipped; a done handle with an exception
raises it immediately; a done handle without exception is appended to
`done_futures`. Returns the collected `done_futures` when no raise occurs. -/
def check_workers_scan : List Fut → Except Exc (List Fut)
  | [] => Except.ok []
  | f :: rest =>
    if f.resolved then
      match f.outcome with
      | some e => Except.error e
      | none =>
        match check_workers_scan rest with
        | Except.error e => Except.error e
        | Except.ok ds => Except.ok (f :: ds)
    else
      check_workers_scan rest

/-- The removal loop of `check_workers`: `self.futures.remove(future)` for
each collected done future, each call deleting the first occurrence. -/
def removeFromFutures (fs : List Fut) (ds : List Fut) : List Fut :=
  ds.foldl List.erase fs

/-- `RemoteUploader.check_workers`: traverse the futures; on the first done
handle holding an exception, raise it (the removal loop never runs, so the
future list is unchanged); otherwise remove every done successful handle. -/
def check_workers (s : UploaderState) : Except Exc Unit × UploaderState :=
  match check_workers_scan s.futures with
  | Except.error e => (Except.error e, s)
  | Except.ok ds =>
    (Except.ok (), { s with futures := removeFromFutures s.futures ds })

/-- The loop of `wait`: `future.exception()` blocks until the handle
resolves; the first handle in submission order that resolved with an
exception raises it, later handles are not waited on. -/
def wait_scan : List Fut → Except Exc Unit
  | [] => Except.ok ()
  | f :: rest =>
    match f.outcome with
    | some e => Except.error e
    | none => wait_scan rest

/-- `RemoteUploader.wait`: block on every tracked future in submission order;
raise the first failure encountered (leaving `self.futures` as it was, since
the clearing assignment runs only after the loop); on full success clear
`self.futures`. -/
def wait (s : UploaderState) : Except Exc Unit × UploaderState :=
  match wait_scan s.futures with
  | Except.error e => (Except.error e, s)
  | Except.ok _ => (Except.ok (), { s with futures := [] })

/-- `RemoteUploader.wait_and_close`: `wait()` then `executor.shutdown`; a
failure propagating out of `wait()` prevents the shutdown. -/
def wait_and_close (s : UploaderState) : Except Exc Unit × UploaderState :=
  match wait s with
  | (Except.error e, s') => (Except.error e, s')
  | (Except.ok _, s') => (Except.ok (), { s' with closed := true })

end RemoteUploader

/-- Environment for `init()`: the global rank of this participant, the
outcome of each call the retry policy makes to `validate_credentials`
(`none` meaning the probe round-trip succeeded), the MLFlow path resolution
collaborator (`MLFlowObjectStore.get_dbfs_path`, one value per input path),
and the path value this participant receives from rank 0 through
`broadcast_object_list`. -/
structure InitEnv where
  global_rank : Nat
  validate_result : Nat → Option Exc
  resolve_dbfs_path : String → String
  broadcast_recv : String

/-- Result of `init()`: the outcome, the final value of `self.path`, and
whether the credential-validation probe was executed on this participant. -/
structure InitRun where
  result : Except Exc Unit
  path : String
  probed : Bool

/-- Modelled from the spec: one call of the credential validator
(`validate_credentials`, a write-and-read probe of a sentinel object, not
under `src/`); its outcome on the i-th retry attempt is
`env.validate_result i`. -/
def validate_op (env : InitEnv) : Nat → Unit → Except Exc Unit × Unit :=
  fun idx _ =>
    (match env.validate_result idx with
     | none => Except.ok ()
     | some e => Except.error e, ())

/-- The credential-validation call of `init()`: the validator wrapped in the
retry policy with the configured attempt budget. -/
def credential_probe (num_attempts : Int) (env : InitEnv) : Except Exc Unit :=
  (retry isTransientExc num_attempts.toNat (validate_op env) ()).1

/-- The tail of `init()`: only the participant with global rank 0 runs the
credential probe; other ranks do nothing. -/
def leader_probe (num_attempts : Int) (env : InitEnv) (p : String) : InitRun :=
  if env.global_rank = 0 then
    match credential_probe num_attempts env with
    | Except.ok _ => { result := Except.ok (), path := p, probed := true }
    | Except.error e => { result := Except.error e, path := p, probed := true }
  else
    { result := Except.ok (), path := p, probed := false }

/-- `RemoteUploader.init`: for a non-dbfs backend, build the shared store and
fall through to the leader-only credential probe; for a dbfs path outside the
MLFlow tracking prefix (the governed-catalog variant), build the backend and
return early — the credential probe is never reached; for an MLFlow dbfs
path, rank 0 resolves the concrete path, the resolved value is broadcast to
every rank, and then the leader-only credential probe runs. Backend-client
construction itself is a collaborator and is modelled as succeeding. -/
def init (s : UploaderState) (env : InitEnv) : InitRun :=
  if s.is_dbfs = false then
    leader_probe s.num_attempts env s.path
  else if strStartsWith s.path MLFLOW_DBFS_PATH_START = false then
    { result := Except.ok (), path := s.path, probed := false }
  else
    leader_probe s.num_attempts env
      (if env.global_rank = 0 then env.resolve_dbfs_path s.path
       else env.broadcast_recv)

/-- A done-and-successful handle: `done()` is true and `exception()` is
`None`; these are the handles `check_workers` removes. -/
def futDoneOk (f : Fut) : Bool :=
  f.resolved && f.outcome == none

/-- A concrete uploader state over a generic object-store URI, used to
exercise the manager operations at specific future lists. -/
def mkState (futs : List Fut) : UploaderState :=
  { remote_folder := "s3://bucket/folder", is_dbfs := false,
    path := "bucket/folder", num_concurrent_uploads := 2, num_attempts := 3,
    staging := [], futures := futs, closed := false }

/-- A concrete uploader state for a dbfs path outside the MLFlow tracking
prefix (the governed-catalog variant). -/
def sUC : UploaderState :=
  { remote_folder := "dbfs:/Volumes/cat/sch/vol", is_dbfs := true,
    path := "Volumes/cat/sch/vol", num_concurrent_uploads := 2,
    num_attempts := 3, staging := [], futures := [], closed := false }

/-- An `init()` environment on the leader whose credential probe fails with
a transient error on every attempt. -/
def envAllFail : InitEnv :=
  { global_rank := 0,
    validate_result := fun _ => some (Exc.objectStoreTransientError 0),
    resolve_dbfs_path := fun p => p,
    broadcast_recv := "" }

lemma wait_scan_ok (fs : List Fut) (h : ∀ f ∈ fs, f.outcome = none) :
    RemoteUploader.wait_scan fs = Except.ok () := by
  induction fs with
  | nil => rfl
  | cons f rest ih =>
    have hf : f.outcome = none := h f (List.mem_cons_self f rest)
    simp only [RemoteUploader.wait_scan, hf]
    exact ih (fun g hg => h g (List.mem_cons_of_mem f hg))

lemma wait_scan_first_error (pre : List Fut) (f : Fut) (rest : List Fut) (e : Exc)
    (hpre : ∀ g ∈ pre, g.outcome = none) (hf : f.outcome = some e) :
    RemoteUploader.wait_scan (pre ++ f :: rest) = Except.error e := by
  induction pre with
  | nil => simp [RemoteUploader.wait_scan, hf]
  | cons g pre ih =>
    have hg : g.outcome = none := hpre g (List.mem_cons_self g pre)
    simp only [List.cons_append, RemoteUploader.wait_scan, hg]
    exact ih (fun x hx => hpre x (List.mem_cons_of_mem g hx))

lemma check_workers_scan_ok (fs : List Fut)
    (h : ∀ f ∈ fs, f.resolved = true → f.outcome = none) :
    RemoteUploader.check_workers_scan fs = Except.ok (fs.filter futDoneOk) := by
  induction fs with
  | nil => rfl
  | cons f rest ih =>
    have hrest := ih (fun g hg => h g (List.mem_cons_of_mem f hg))
    by_cases hr : f.resolved = true
    · have hout : f.outcome = none := h f (List.mem_cons_self f rest) hr
      simp [RemoteUploader.check_workers_scan, hr, hout, hrest,
        List.filter_cons, futDoneOk]
    · have hrf : f.resolved = false := by simpa using hr
      simp [RemoteUploader.check_workers_scan, hrf, hrest,
        List.filter_cons, futDoneOk]

lemma check_workers_scan_first_error (pre : List Fut) (f : Fut) (rest : List Fut)
    (e : Exc) (hpre : ∀ g ∈ pre, g.resolved = true → g.outcome = none)
    (hr : f.resolved = true) (hf : f.outcome = some e) :
    RemoteUploader.check_workers_scan (pre ++ f :: rest) = Except.error e := by
  induction pre with
  | nil => simp [RemoteUploader.check_workers_scan, hr, hf]
  | cons g pre ih =>
    have htail := ih (fun x hx hxr => hpre x (List.mem_cons_of_mem g hx) hxr)
    by_cases hgr : g.resolved = true
    · have hgout : g.outcome = none := hpre g (List.mem_cons_self g pre) hgr
      simp [RemoteUploader.check_workers_scan, hgr, hgout, htail]
    · simp [RemoteUploader.check_workers_scan, hgr, htail]

lemma check_workers_scan_error_of_failed (fs : List Fut) (f : Fut) (hf : f ∈ fs)
    (hr : f.resolved = true) (hfail : f.outcome ≠ none) :
    ∃ e, RemoteUploader.check_workers_scan fs = Except.error e := by
  induction fs with
  | nil => cases hf
  | cons g rest ih =>
    by_cases hgr : g.resolved = true
    · cases hgout : g.outcome with
      | some e => exact ⟨e, by simp [RemoteUploader.check_workers_scan, hgr, hgout]⟩
      | none =>
        rcases List.mem_cons.mp hf with rfl | hfr
        · exact absurd hgout hfail
        · obtain ⟨e, he⟩ := ih hfr
          exact ⟨e, by simp [RemoteUploader.check_workers_scan, hgr, hgout, he]⟩
    · rcases List.mem_cons.mp hf with rfl | hfr
      · exact absurd hr hgr
      · obtain ⟨e, he⟩ := ih hfr
        exact ⟨e, by simp [RemoteUploader.check_workers_scan, hgr, he]⟩

lemma foldl_erase_cons_of_ne {α : Type} [DecidableEq α] (a : α) (l ds : List α)
    (h : ∀ d ∈ ds, d ≠ a) :
    ds.foldl List.erase (a :: l) = a :: ds.foldl List.erase l := by
  induction ds generalizing l with
  | nil => rfl
  | cons d ds ih =>
    have hda : ¬(a == d) := by
      simp only [beq_iff_eq]
      exact fun hx => h d (List.mem_cons_self d ds) (hx ▸ rfl)
    simp only [List.foldl_cons, List.erase_cons_tail hda]
    exact ih (l.erase d) (fun x hx => h x (List.mem_cons_of_mem d hx))

lemma foldl_erase_filter {α : Type} [DecidableEq α] (p : α → Bool) (l : List α) :
    (l.filter p).foldl List.erase l = l.filter (fun a => !(p a)) := by
  induction l with
  | nil => rfl
  | cons a t ih =>
    by_cases hp : p a = true
    · have hfc : (a :: t).filter p = a :: t.filter p := by
        simp [List.filter_cons, hp]
      have hfc2 : (a :: t).filter (fun x => !(p x)) = t.filter (fun x => !(p x)) := by
        simp [List.filter_cons, hp]
      rw [hfc, hfc2, List.foldl_cons, List.erase_cons_head, ih]
    · have hne : ∀ d ∈ t.filter p, d ≠ a := by
        intro d hd hda
        exact hp (hda ▸ List.of_mem_filter hd)
      have hfc : (a :: t).filter p = t.filter p := by
        simp [List.filter_cons, hp]
      have hfc2 : (a :: t).filter (fun x => !(p x)) = a :: t.filter (fun x => !(p x)) := by
        simp [List.filter_cons, hp]
      rw [hfc, hfc2, foldl_erase_cons_of_ne a t _ hne, ih]

lemma check_workers_eq_error (s : UploaderState) (e : Exc)
    (hs : RemoteUploader.check_workers_scan s.futures = Except.error e) :
    RemoteUploader.check_workers s = (Except.error e, s) := by
  simp [RemoteUploader.check_workers, hs]

lemma check_workers_fst_error (s : UploaderState) (e : Exc)
    (h : (RemoteUploader.check_workers s).1 = Except.error e) :
    RemoteUploader.check_workers_scan s.futures = Except.error e := by
  cases hs : RemoteUploader.check_workers_scan s.futures with
  | error e' =>
    rw [check_workers_eq_error s e' hs] at h
    simpa using h
  | ok ds =>
    have hok : RemoteUploader.check_workers s = (Except.ok (),
        { s with futures := RemoteUploader.removeFromFutures s.futures ds }) := by
      simp [RemoteUploader.check_workers, hs]
    rw [hok] at h
    exact absurd h (by simp)

/-- C1: for a `RemoteUploader` whose tracked handles all eventually resolve
successfully, `wait()` returns normally and leaves `self.futures` empty; when
some handle resolves with an error, `wait()` raises the exception of the
first failing handle in submission order, whatever the handles after it
resolve to (they are not waited on). -/
theorem wait_clears_on_success_and_raises_first_failure (s : UploaderState) :
    ((∀ f ∈ s.futures, f.outcome = none) →
      RemoteUploader.wait s = (Except.ok (), { s with futures := [] })) ∧
    (∀ pre f rest e, s.futures = pre ++ f :: rest →
      (∀ g ∈ pre, g.outcome = none) → f.outcome = some e →
      (RemoteUploader.wait s).1 = Except.error e) := by
  constructor
  · intro h
    simp [RemoteUploader.wait, wait_scan_ok s.futures h]
  · intro pre f rest e hdec hpre hf
    simp [RemoteUploader.wait, hdec, wait_scan_first_error pre f rest e hpre hf]

theorem wait_clears_on_success_and_raises_first_failure_witness :
    RemoteUploader.wait (mkState [⟨true, none⟩, ⟨false, none⟩])
        = (Except.ok (), mkState []) ∧
    (RemoteUploader.wait
        (mkState [⟨true, none⟩, ⟨true, some Exc.fileNotFoundError⟩,
          ⟨false, none⟩])).1 = Except.error Exc.fileNotFoundError := by
  constructor
  · exact (wait_clears_on_success_and_raises_first_failure
      (mkState [⟨true, none⟩, ⟨false, none⟩])).1 (by decide)
  · exact (wait_clears_on_success_and_raises_first_failure
      (mkState [⟨true, none⟩, ⟨true, some Exc.fileNotFoundError⟩, ⟨false, none⟩])).2
      [⟨true, none⟩] ⟨true, some Exc.fileNotFoundError⟩ [⟨false, none⟩]
      Exc.fileNotFoundError rfl (by decide) rfl

/-- C2: `check_workers()` inspects only handles whose `done()` is true: the
first done handle holding an exception raises it; with no done failure every
done successful handle is removed from `self.futures`; and when every handle
is still unresolved the call returns normally with the future list
untouched. -/
theorem check_workers_terminal_inspection (s : UploaderState) :
    ((∀ f ∈ s.futures, f.resolved = false) →
      RemoteUploader.check_workers s = (Except.ok (), s)) ∧
    (∀ pre f rest e, s.futures = pre ++ f :: rest →
      (∀ g ∈ pre, g.resolved = true → g.outcome = none) →
      f.resolved = true → f.outcome = some e →
      (RemoteUploader.check_workers s).1 = Except.error e) ∧
    ((∀ f ∈ s.futures, f.resolved = true → f.outcome = none) →
      RemoteUploader.check_workers s = (Except.ok (),
        { s with futures := s.futures.filter (fun f => !(futDoneOk f)) })) := by
  refine ⟨?_, ?_, ?_⟩
  · intro h
    have hno : ∀ f ∈ s.futures, f.resolved = true → f.outcome = none := by
      intro f hf hr
      exact absurd hr (by simp [h f hf])
    have hfil : s.futures.filter futDoneOk = [] := by
      rw [List.filter_eq_nil_iff]
      intro f hf
      simp [futDoneOk, h f hf]
    simp [RemoteUploader.check_workers, check_workers_scan_ok s.futures hno, hfil,
      RemoteUploader.removeFromFutures]
  · intro pre f rest e hdec hpre hr hf
    simp [RemoteUploader.check_workers, hdec,
      check_workers_scan_first_error pre f rest e hpre hr hf]
  · intro h
    simp [RemoteUploader.check_workers, check_workers_scan_ok s.futures h,
      RemoteUploader.removeFromFutures, foldl_erase_filter]

theorem check_workers_terminal_inspection_witness :
    RemoteUploader.check_workers (mkState [⟨false, none⟩, ⟨false, some (Exc.objectStoreTransientError 3)⟩])
        = (Except.ok (), mkState [⟨false, none⟩, ⟨false, some (Exc.objectStoreTransientError 3)⟩]) ∧
    (RemoteUploader.check_workers
        (mkState [⟨true, none⟩, ⟨true, some (Exc.fileExistsError "ckpt")⟩])).1
        = Except.error (Exc.fileExistsError "ckpt") ∧
    RemoteUploader.check_workers (mkState [⟨true, none⟩, ⟨false, none⟩])
        = (Except.ok (), mkState [⟨false, none⟩]) := by
  refine ⟨?_, ?_, ?_⟩
  · exact (check_workers_terminal_inspection
      (mkState [⟨false, none⟩, ⟨false, some (Exc.objectStoreTransientError 3)⟩])).1
      (by decide)
  · exact (check_workers_terminal_inspection
      (mkState [⟨true, none⟩, ⟨true, some (Exc.fileExistsError "ckpt")⟩])).2.1
      [⟨true, none⟩] ⟨true, some (Exc.fileExistsError "ckpt")⟩ []
      (Exc.fileExistsError "ckpt") rfl (by decide) rfl rfl
  · exact (check_workers_terminal_inspection
      (mkState [⟨true, none⟩, ⟨false, none⟩])).2.2 (by decide)

/-- C3: when `check_workers()` raises, the future list is left as it was, so
every tracked handle — in particular the failed one — is still tracked, and a
second `check_workers()` call on the resulting state raises the same
exception again. -/
theorem check_workers_failed_handle_retained (s : UploaderState) (e : Exc)
    (h : (RemoteUploader.check_workers s).1 = Except.error e) :
    (RemoteUploader.check_workers s).2 = s ∧
    (∀ f ∈ s.futures, f ∈ (RemoteUploader.check_workers s).2.futures) ∧
    (RemoteUploader.check_workers ((RemoteUploader.check_workers s).2)).1
      = Except.error e := by
  have hscan := check_workers_fst_error s e h
  have heq := check_workers_eq_error s e hscan
  refine ⟨by rw [heq], ?_, ?_⟩
  · intro f hf
    rw [heq]
    exact hf
  · rw [heq]
    rw [heq]

theorem check_workers_failed_handle_retained_witness :
    (RemoteUploader.check_workers
      (RemoteUploader.check_workers
        (mkState [⟨true, some (Exc.objectStoreTransientError 1)⟩])).2).1
      = Except.error (Exc.objectStoreTransientError 1) :=
  (check_workers_failed_handle_retained
    (mkState [⟨true, some (Exc.objectStoreTransientError 1)⟩])
    (Exc.objectStoreTransientError 1) rfl).2.2

/-- C10: a `check_workers()` call that raises removes no handle from the
future list — not even handles already observed as succeeded earlier in the
same traversal — because the removal loop only runs after the whole traversal
finished without raising. -/
theorem check_workers_error_removes_no_handle (s : UploaderState)
    (pre : List Fut) (f : Fut) (rest : List Fut)
    (hdec : s.futures = pre ++ f :: rest) (hr : f.resolved = true)
    (hfail : f.outcome ≠ none) :
    (∃ e, (RemoteUploader.check_workers s).1 = Except.error e) ∧
    (RemoteUploader.check_workers s).2.futures = s.futures := by
  have hf : f ∈ s.futures := by
    rw [hdec]
    exact List.mem_append.mpr (Or.inr (List.mem_cons_self f rest))
  obtain ⟨e, he⟩ := check_workers_scan_error_of_failed s.futures f hf hr hfail
  constructor
  · exact ⟨e, by simp [RemoteUploader.check_workers, he]⟩
  · simp [RemoteUploader.check_workers, he]

theorem check_workers_error_removes_no_handle_witness :
    (RemoteUploader.check_workers
      (mkState [⟨true, none⟩, ⟨true, some Exc.fileNotFoundError⟩])).2.futures
      = [⟨true, none⟩, ⟨true, some Exc.fileNotFoundError⟩] :=
  (check_workers_error_removes_no_handle
    (mkState [⟨true, none⟩, ⟨true, some Exc.fileNotFoundError⟩])
    [⟨true, none⟩] ⟨true, some Exc.fileNotFoundError⟩ [] rfl rfl
    (by decide)).2

lemma retryRun_congr {σ : Type} (t : Exc → Bool)
    (op1 op2 : Nat → σ → Except Exc Unit × σ)
    (h : ∀ i st, op1 i st = op2 i st) :
    ∀ (n idx : Nat) (st : σ), retryRun t op1 n idx st = retryRun t op2 n idx st := by
  intro n
  induction n with
  | zero => intro idx st; rfl
  | succ m ih =>
    intro idx st
    simp only [retryRun, h idx st]
    rcases op2 idx st with ⟨r, st'⟩
    cases r with
    | ok u => rfl
    | error e =>
      show (if t e = true ∧ m ≠ 0 then retryRun t op1 m (idx + 1) st'
          else (Except.error e, st'))
        = (if t e = true ∧ m ≠ 0 then retryRun t op2 m (idx + 1) st'
          else (Except.error e, st'))
      by_cases hc : t e = true ∧ m ≠ 0
      · rw [if_pos hc, if_pos hc]
        exact ih (idx + 1) st'
      · rw [if_neg hc, if_neg hc]

lemma upload_object_call_staging (lfp : String) (env : WorkerEnv) (idx : Nat)
    (st : WorkerSt) :
    ((upload_object_call lfp env idx st).1 = Except.ok () ∧
      (upload_object_call lfp env idx st).2.staging = st.staging.erase lfp) ∨
    ((∃ e, (upload_object_call lfp env idx st).1 = Except.error e) ∧
      (upload_object_call lfp env idx st).2.staging = st.staging) := by
  unfold upload_object_call
  cases hu : env.upload_result idx with
  | none => left; exact ⟨rfl, rfl⟩
  | some e => right; exact ⟨⟨e, rfl⟩, rfl⟩

lemma upload_file_attempt_staging (rn lfp : String) (ow : Bool) (env : WorkerEnv)
    (idx : Nat) (st : WorkerSt) :
    ((upload_file rn lfp ow env idx st).1 = Except.ok () ∧
      (upload_file rn lfp ow env idx st).2.staging = st.staging.erase lfp) ∨
    ((∃ e, (upload_file rn lfp ow env idx st).1 = Except.error e) ∧
      (upload_file rn lfp ow env idx st).2.staging = st.staging) := by
  unfold upload_file
  by_cases hc : idx = 0 ∧ ow = false
  · rw [if_pos hc]
    cases hp : env.probe with
    | ok sz => right; exact ⟨⟨Exc.fileExistsError rn, rfl⟩, rfl⟩
    | error pe =>
      cases pe with
      | fileNotFoundError => exact upload_object_call_staging lfp env idx st
      | valueError msg => right; exact ⟨⟨Exc.valueError msg, rfl⟩, rfl⟩
      | fileExistsError o => right; exact ⟨⟨Exc.fileExistsError o, rfl⟩, rfl⟩
      | objectStoreTransientError c =>
        right; exact ⟨⟨Exc.objectStoreTransientError c, rfl⟩, rfl⟩
      | runtimeError m => right; exact ⟨⟨Exc.runtimeError m, rfl⟩, rfl⟩
  · rw [if_neg hc]
    exact upload_object_call_staging lfp env idx st

lemma retry_worker_staging (rn lfp : String) (ow : Bool) (env : WorkerEnv) :
    ∀ (n idx : Nat) (st : WorkerSt),
    ((retryRun isTransientExc (upload_file rn lfp ow env) n idx st).1 = Except.ok () →
      (retryRun isTransientExc (upload_file rn lfp ow env) n idx st).2.staging
        = st.staging.erase lfp) ∧
    (∀ e, (retryRun isTransientExc (upload_file rn lfp ow env) n idx st).1
        = Except.error e →
      (retryRun isTransientExc (upload_file rn lfp ow env) n idx st).2.staging
        = st.staging) := by
  intro n
  induction n with
  | zero =>
    intro idx st
    exact ⟨fun h => absurd h (by simp [retryRun]), fun e h => rfl⟩
  | succ m ih =>
    intro idx st
    have hcase := upload_file_attempt_staging rn lfp ow env idx st
    rcases hop : upload_file rn lfp ow env idx st with ⟨r, st'⟩
    rw [hop] at hcase
    cases r with
    | ok u =>
      cases u
      simp only [retryRun, hop]
      rcases hcase with ⟨_, hstag⟩ | ⟨⟨e, habs⟩, _⟩
      · exact ⟨fun _ => hstag, fun e h => absurd h (by simp)⟩
      · exact absurd habs (by simp)
    | error e =>
      simp only [retryRun, hop]
      rcases hcase with ⟨habs, _⟩ | ⟨_, hstag⟩
      · exact absurd habs (by simp)
      · by_cases hc : isTransientExc e = true ∧ m ≠ 0
        · rw [if_pos hc]
          refine ⟨fun h => ?_, fun e' h => ?_⟩
          · rw [(ih (idx + 1) st').1 h, hstag]
          · rw [(ih (idx + 1) st').2 e' h, hstag]
        · rw [if_neg hc]
          exact ⟨fun h => absurd h (by simp), fun e' h => hstag⟩

/-- C5: the worker deletes the staged local copy exactly when the task
succeeds: on success the task's own staged file is removed from the staging
area; on terminal failure the staging area is exactly as it was; and in every
case no file other than the task's own staged copy is touched. -/
theorem staged_copy_deleted_iff_success (rn lfp : String) (ow : Bool)
    (na : Nat) (env : WorkerEnv) (st : WorkerSt) :
    ((upload_file_to_object_store rn lfp ow na env st).result = Except.ok () →
      (upload_file_to_object_store rn lfp ow na env st).final.staging
        = st.staging.erase lfp) ∧
    (∀ e, (upload_file_to_object_store rn lfp ow na env st).result
        = Except.error e →
      (upload_file_to_object_store rn lfp ow na env st).final.staging
        = st.staging) ∧
    (∀ p, p ≠ lfp →
      (p ∈ (upload_file_to_object_store rn lfp ow na env st).final.staging ↔
        p ∈ st.staging)) := by
  have h := retry_worker_staging rn lfp ow env na 0 st
  refine ⟨fun hok => h.1 hok, fun e he => h.2 e he, ?_⟩
  intro p hp
  cases hr : (retryRun isTransientExc (upload_file rn lfp ow env) na 0 st).1 with
  | ok u =>
    cases u
    have : (upload_file_to_object_store rn lfp ow na env st).final.staging
        = st.staging.erase lfp := h.1 hr
    rw [this]
    exact List.mem_erase_of_ne hp
  | error e =>
    have : (upload_file_to_object_store rn lfp ow na env st).final.staging
        = st.staging := h.2 e hr
    rw [this]

theorem staged_copy_deleted_iff_success_witness :
    (upload_file_to_object_store "ckpt" "staged1" true 3
        ⟨Except.ok 5, fun _ => none, 0, none⟩ ⟨["other", "staged1"], 0⟩).final.staging
      = ["other"] ∧
    (upload_file_to_object_store "ckpt" "staged1" true 3
        ⟨Except.ok 5, fun _ => some (Exc.objectStoreTransientError 2), 0, none⟩
        ⟨["other", "staged1"], 0⟩).final.staging = ["other", "staged1"] ∧
    ("other" ∈ (upload_file_to_object_store "ckpt" "staged1" true 3
        ⟨Except.ok 5, fun _ => none, 0, none⟩ ⟨["other", "staged1"], 0⟩).final.staging ↔
      "other" ∈ ["other", "staged1"]) :=
  ⟨(staged_copy_deleted_iff_success "ckpt" "staged1" true 3
      ⟨Except.ok 5, fun _ => none, 0, none⟩ ⟨["other", "staged1"], 0⟩).1 rfl,
   (staged_copy_deleted_iff_success "ckpt" "staged1" true 3
      ⟨Except.ok 5, fun _ => some (Exc.objectStoreTransientError 2), 0, none⟩
      ⟨["other", "staged1"], 0⟩).2.1 (Exc.objectStoreTransientError 2) rfl,
   (staged_copy_deleted_iff_success "ckpt" "staged1" true 3
      ⟨Except.ok 5, fun _ => none, 0, none⟩ ⟨["other", "staged1"], 0⟩).2.2 "other"
      (by decide)⟩

/-- C4: with `overwrite = False` the worker first probes the destination
size; a `FileNotFoundError` from the probe is absorbed and the whole run
behaves exactly as if no probe had happened; an existing destination makes
the run fail with `FileExistsError` before any upload is attempted (the
final state, including the ghost upload counter, is untouched), for every
attempt budget and whatever the upload outcomes would have been; and
`FileExistsError` is not in the transient class the retry policy retries. -/
theorem no_overwrite_probe_conflict (rn lfp : String) (na : Nat)
    (env : WorkerEnv) (st : WorkerSt) :
    (env.probe = Except.error Exc.fileNotFoundError →
      upload_file_to_object_store rn lfp false na env st
        = upload_file_to_object_store rn lfp true na env st) ∧
    (∀ sz : Int, env.probe = Except.ok sz → 1 ≤ na →
      upload_file_to_object_store rn lfp false na env st
        = { result := Except.error (Exc.fileExistsError rn), final := st,
            slept := stagger_delay env.local_rank env.stagger_env }) ∧
    isTransientExc (Exc.fileExistsError rn) = false := by
  refine ⟨?_, ?_, rfl⟩
  · intro hp
    have hpt : ∀ (i : Nat) (stx : WorkerSt),
        upload_file rn lfp false env i stx = upload_file rn lfp true env i stx := by
      intro i stx
      by_cases hi : i = 0
      · have h1 : upload_file rn lfp false env i stx
            = upload_object_call lfp env i stx := by
          unfold upload_file
          rw [if_pos ⟨hi, rfl⟩, hp]
        have h2 : upload_file rn lfp true env i stx
            = upload_object_call lfp env i stx := by
          unfold upload_file
          rw [if_neg (by simp)]
        rw [h1, h2]
      · have h1 : upload_file rn lfp false env i stx
            = upload_object_call lfp env i stx := by
          unfold upload_file
          rw [if_neg (by simp [hi])]
        have h2 : upload_file rn lfp true env i stx
            = upload_object_call lfp env i stx := by
          unfold upload_file
          rw [if_neg (by simp)]
        rw [h1, h2]
    unfold upload_file_to_object_store retry
    rw [retryRun_congr isTransientExc _ _ hpt na 0 st]
  · intro sz hp hna
    cases na with
    | zero => omega
    | succ m =>
      have hstep : upload_file rn lfp false env 0 st
          = (Except.error (Exc.fileExistsError rn), st) := by
        unfold upload_file
        rw [if_pos ⟨rfl, rfl⟩, hp]
      unfold upload_file_to_object_store retry
      simp only [retryRun, hstep]
      simp [isTransientExc]

theorem no_overwrite_probe_conflict_witness :
    upload_file_to_object_store "ckpt" "staged1" false 3
        ⟨Except.error Exc.fileNotFoundError, fun _ => none, 0, none⟩ ⟨["staged1"], 0⟩
      = upload_file_to_object_store "ckpt" "staged1" true 3
        ⟨Except.error Exc.fileNotFoundError, fun _ => none, 0, none⟩ ⟨["staged1"], 0⟩ ∧
    upload_file_to_object_store "ckpt" "staged1" false 3
        ⟨Except.ok 5, fun _ => none, 0, none⟩ ⟨["staged1"], 0⟩
      = { result := Except.error (Exc.fileExistsError "ckpt"),
          final := ⟨["staged1"], 0⟩, slept := 0 } :=
  ⟨(no_overwrite_probe_conflict "ckpt" "staged1" 3
      ⟨Except.error Exc.fileNotFoundError, fun _ => none, 0, none⟩ ⟨["staged1"], 0⟩).1 rfl,
   (no_overwrite_probe_conflict "ckpt" "staged1" 3
      ⟨Except.ok 5, fun _ => none, 0, none⟩ ⟨["staged1"], 0⟩).2.1 5 rfl (by decide)⟩

/-- C9: before the upload begins the worker sleeps for the local rank
multiplied by the stagger value read from the environment at task-execution
time, and a worker with local rank `0` computes a zero delay for every
stagger configuration. -/
theorem stagger_delay_spec (rn lfp : String) (ow : Bool) (na : Nat)
    (env : WorkerEnv) (st : WorkerSt) :
    (upload_file_to_object_store rn lfp ow na env st).slept
        = (env.local_rank : Int) * staggerSeconds env.stagger_env ∧
    (env.local_rank = 0 →
      (upload_file_to_object_store rn lfp ow na env st).slept = 0) := by
  constructor
  · rfl
  · intro h
    simp [upload_file_to_object_store, stagger_delay, h]

theorem stagger_delay_spec_witness :
    (upload_file_to_object_store "ckpt" "staged1" true 1
        ⟨Except.ok 0, fun _ => none, 0, some 30⟩ ⟨[], 0⟩).slept = 0 :=
  (stagger_delay_spec "ckpt" "staged1" true 1
    ⟨Except.ok 0, fun _ => none, 0, some 30⟩ ⟨[], 0⟩).2 rfl

/-- C6: constructing the uploader with `num_concurrent_uploads < 1` or
`num_attempts < 1` (any combination) raises `ValueError` synchronously; with
both bounds at least `1` construction succeeds, records exactly the two
bounds, and no manager operation ever changes them afterwards. -/
theorem construction_bounds_validated (rf : String) (nc na : Int) :
    ((nc < 1 ∨ na < 1) →
      RemoteUploader.construct rf nc na
        = Except.error (Exc.valueError
            "num_concurrent_uploads and num_attempts must be >= 1")) ∧
    (1 ≤ nc → 1 ≤ na → ∃ s, RemoteUploader.construct rf nc na = Except.ok s ∧
      s.num_concurrent_uploads = nc ∧ s.num_attempts = na) ∧
    (∀ (s : UploaderState) (fresh : String) (fut : Fut),
      (RemoteUploader.upload_file_async s fresh fut).2.num_concurrent_uploads
          = s.num_concurrent_uploads ∧
      (RemoteUploader.upload_file_async s fresh fut).2.num_attempts
          = s.num_attempts) ∧
    (∀ s : UploaderState,
      (RemoteUploader.check_workers s).2.num_concurrent_uploads
          = s.num_concurrent_uploads ∧
      (RemoteUploader.check_workers s).2.num_attempts = s.num_attempts ∧
      (RemoteUploader.wait s).2.num_concurrent_uploads
          = s.num_concurrent_uploads ∧
      (RemoteUploader.wait s).2.num_attempts = s.num_attempts ∧
      (RemoteUploader.wait_and_close s).2.num_concurrent_uploads
          = s.num_concurrent_uploads ∧
      (RemoteUploader.wait_and_close s).2.num_attempts = s.num_attempts) := by
  refine ⟨?_, ?_, ?_, ?_⟩
  · intro h
    unfold RemoteUploader.construct
    rw [if_pos h]
  · intro h1 h2
    have hn : ¬(nc < 1 ∨ na < 1) := by omega
    refine ⟨{ remote_folder := rf,
              is_dbfs := (parse_uri rf).1 == "dbfs",
              path := (parse_uri rf).2,
              num_concurrent_uploads := nc, num_attempts := na,
              staging := [], futures := [], closed := false }, ?_, rfl, rfl⟩
    unfold RemoteUploader.construct
    rw [if_neg hn]
  · intro s fresh fut
    by_cases hcl : s.closed
    · constructor <;> simp [RemoteUploader.upload_file_async, hcl]
    · constructor <;> simp [RemoteUploader.upload_file_async, hcl]
  · intro s
    have hcw : (RemoteUploader.check_workers s).2.num_concurrent_uploads
          = s.num_concurrent_uploads ∧
        (RemoteUploader.check_workers s).2.num_attempts = s.num_attempts := by
      cases hs : RemoteUploader.check_workers_scan s.futures with
      | error e => constructor <;> simp [RemoteUploader.check_workers, hs]
      | ok ds => constructor <;> simp [RemoteUploader.check_workers, hs]
    have hw : (RemoteUploader.wait s).2.num_concurrent_uploads
          = s.num_concurrent_uploads ∧
        (RemoteUploader.wait s).2.num_attempts = s.num_attempts := by
      cases hs : RemoteUploader.wait_scan s.futures with
      | error e => constructor <;> simp [RemoteUploader.wait, hs]
      | ok u =>
        cases u
        constructor <;> simp [RemoteUploader.wait, hs]
    have hwc : (RemoteUploader.wait_and_close s).2.num_concurrent_uploads
          = s.num_concurrent_uploads ∧
        (RemoteUploader.wait_and_close s).2.num_attempts = s.num_attempts := by
      rcases hw2 : RemoteUploader.wait s with ⟨r, s'⟩
      rw [hw2] at hw
      unfold RemoteUploader.wait_and_close
      rw [hw2]
      cases r with
      | error e => exact ⟨hw.1, hw.2⟩
      | ok u =>
        cases u
        exact ⟨hw.1, hw.2⟩
    exact ⟨hcw.1, hcw.2, hw.1, hw.2, hwc.1, hwc.2⟩

theorem construction_bounds_validated_witness :
    RemoteUploader.construct "s3://bucket/folder" 0 3
      = Except.error (Exc.valueError
          "num_concurrent_uploads and num_attempts must be >= 1") ∧
    (∃ s, RemoteUploader.construct "s3://bucket/folder" 2 3 = Except.ok s ∧
      s.num_concurrent_uploads = 2 ∧ s.num_attempts = 3) :=
  ⟨(construction_bounds_validated "s3://bucket/folder" 0 3).1
      (Or.inl (by decide)),
   (construction_bounds_validated "s3://bucket/folder" 2 3).2.1
      (by decide) (by decide)⟩

/-- C7 counterexample: submitting after `wait_and_close()` does create a new
file in the staging area — the staging copy happens before the executor
submission that raises — so the claim that no staging copy is performed is
false. -/
theorem upload_after_close_copies_counterexample :
    (RemoteUploader.upload_file_async
        (RemoteUploader.wait_and_close (mkState [])).2 "stagedcopy"
        ⟨false, none⟩).2.staging
      ≠ ((RemoteUploader.wait_and_close (mkState [])).2).staging := by
  decide

/-- C7 (amended): after `wait_and_close()` has returned normally, a further
`upload_file_async` call raises the closed-pool `RuntimeError`; however the
staging copy has already been performed when the error is raised: the call
leaves exactly one new file in the staging area. -/
theorem upload_after_close_raises (s s' : UploaderState) (fresh : String)
    (fut : Fut)
    (h : RemoteUploader.wait_and_close s = (Except.ok (), s')) :
    (RemoteUploader.upload_file_async s' fresh fut).1
        = Except.error
            (Exc.runtimeError "cannot schedule new futures after shutdown") ∧
    (RemoteUploader.upload_file_async s' fresh fut).2
        = { s' with staging := s'.staging ++ [fresh] } := by
  have hclosed : s'.closed = true := by
    unfold RemoteUploader.wait_and_close at h
    rcases hw : RemoteUploader.wait s with ⟨r, s2⟩
    rw [hw] at h
    cases r with
    | error e => simp at h
    | ok u =>
      cases u
      have h2 : { s2 with closed := true } = s' := congrArg Prod.snd h
      rw [← h2]
  constructor
  · simp [RemoteUploader.upload_file_async, hclosed]
  · simp [RemoteUploader.upload_file_async, hclosed]

theorem upload_after_close_raises_witness :
    (RemoteUploader.upload_file_async
        (RemoteUploader.wait_and_close (mkState [⟨true, none⟩])).2 "u1"
        ⟨false, none⟩).1
      = Except.error
          (Exc.runtimeError "cannot schedule new futures after shutdown") :=
  (upload_after_close_raises (mkState [⟨true, none⟩]) _ "u1" ⟨false, none⟩
    rfl).1

lemma validate_retry_all_fail (env : InitEnv) (e : Exc)
    (he : isTransientExc e = true)
    (hall : ∀ i, env.validate_result i = some e) :
    ∀ n, 1 ≤ n → ∀ idx,
      (retryRun isTransientExc (validate_op env) n idx ()).1 = Except.error e := by
  intro n
  induction n with
  | zero => intro h; omega
  | succ m ih =>
    intro _ idx
    have hstep : validate_op env idx () = (Except.error e, ()) := by
      unfold validate_op
      rw [hall idx]
    simp only [retryRun, hstep]
    by_cases hm : m = 0
    · rw [hm]
      simp [he]
    · rw [if_pos ⟨he, hm⟩]
      exact ih (by omega) (idx + 1)

lemma validate_retry_succeeds (env : InitEnv) :
    ∀ (j n idx : Nat), j < n →
      (∀ i, i < j →
        ∃ e, env.validate_result (idx + i) = some e ∧ isTransientExc e = true) →
      env.validate_result (idx + j) = none →
      (retryRun isTransientExc (validate_op env) n idx ()).1 = Except.ok () := by
  intro j
  induction j with
  | zero =>
    intro n idx hlt hfail hok
    cases n with
    | zero => omega
    | succ m =>
      simp only [Nat.add_zero] at hok
      have hstep : validate_op env idx () = (Except.ok (), ()) := by
        unfold validate_op
        rw [hok]
      simp only [retryRun, hstep]
  | succ j ih =>
    intro n idx hlt hfail hok
    cases n with
    | zero => omega
    | succ m =>
      obtain ⟨e, he1, he2⟩ := hfail 0 (Nat.succ_pos j)
      simp only [Nat.add_zero] at he1
      have hstep : validate_op env idx () = (Except.error e, ()) := by
        unfold validate_op
        rw [he1]
      have hm : m ≠ 0 := by omega
      simp only [retryRun, hstep]
      rw [if_pos ⟨he2, hm⟩]
      refine ih m (idx + 1) (by omega) ?_ ?_
      · intro i hi
        obtain ⟨e', h1, h2⟩ := hfail (i + 1) (by omega)
        refine ⟨e', ?_, h2⟩
        rw [show idx + 1 + i = idx + (i + 1) from by omega]
        exact h1
      · rw [show idx + 1 + j = idx + (j + 1) from by omega]
        exact hok

lemma leader_probe_nonleader (na : Int) (env : InitEnv) (p : String)
    (hrank : env.global_rank ≠ 0) :
    leader_probe na env p
      = { result := Except.ok (), path := p, probed := false } := by
  unfold leader_probe
  rw [if_neg hrank]

lemma leader_probe_fail (na : Int) (env : InitEnv) (p : String) (e : Exc)
    (hrank : env.global_rank = 0) (he : isTransientExc e = true)
    (hall : ∀ i, env.validate_result i = some e) (hna : 1 ≤ na) :
    leader_probe na env p
      = { result := Except.error e, path := p, probed := true } := by
  have hcp : credential_probe na env = Except.error e := by
    unfold credential_probe retry
    exact validate_retry_all_fail env e he hall na.toNat (by omega) 0
  unfold leader_probe
  rw [if_pos hrank, hcp]

lemma leader_probe_ok_within (na : Int) (env : InitEnv) (p : String) (k : Nat)
    (hrank : env.global_rank = 0) (hk : (k : Int) < na)
    (hfail : ∀ i, i < k →
      ∃ e, env.validate_result i = some e ∧ isTransientExc e = true)
    (hok : env.validate_result k = none) :
    leader_probe na env p
      = { result := Except.ok (), path := p, probed := true } := by
  have hcp : credential_probe na env = Except.ok () := by
    unfold credential_probe retry
    refine validate_retry_succeeds env k na.toNat 0 (by omega) ?_ ?_
    · intro i hi
      simpa using hfail i hi
    · simpa using hok
  unfold leader_probe
  rw [if_pos hrank, hcp]

lemma init_eq_leader_probe (s : UploaderState) (env : InitEnv)
    (helig : s.is_dbfs = false ∨
      strStartsWith s.path MLFLOW_DBFS_PATH_START = true) :
    init s env = leader_probe s.num_attempts env
      (if s.is_dbfs = false then s.path
       else if env.global_rank = 0 then env.resolve_dbfs_path s.path
       else env.broadcast_recv) := by
  by_cases hdb : s.is_dbfs = false
  · unfold init
    rw [if_pos hdb, if_pos hdb]
  · have hml : strStartsWith s.path MLFLOW_DBFS_PATH_START = true := by
      rcases helig with h | h
      · exact absurd h hdb
      · exact h
    unfold init
    rw [if_neg hdb, if_neg (by simp [hml]), if_neg hdb]

/-- C8 (amended): `init()` runs the credential-validation probe only on the
leader (global rank 0) and only for the backends that reach the probe: every
non-dbfs backend and every MLFlow dbfs path. There the probe is wrapped in
the retry policy with the configured attempt budget — transient failure on
every attempt raises the exhausted error and aborts initialization, while a
success within the budget completes normally. Non-leader participants never
probe, and a dbfs path outside the MLFlow tracking prefix returns early
without any probe even on the leader (so the original claim's every backend
kind does not hold). -/
theorem init_leader_probe_spec (s : UploaderState) (env : InitEnv) :
    (env.global_rank ≠ 0 →
      (init s env).probed = false ∧ (init s env).result = Except.ok ()) ∧
    (s.is_dbfs = true → strStartsWith s.path MLFLOW_DBFS_PATH_START = false →
      (init s env).probed = false ∧ (init s env).result = Except.ok ()) ∧
    (env.global_rank = 0 →
      (s.is_dbfs = false ∨
        strStartsWith s.path MLFLOW_DBFS_PATH_START = true) →
      (∀ e, isTransientExc e = true → (∀ i, env.validate_result i = some e) →
        1 ≤ s.num_attempts →
        (init s env).probed = true ∧ (init s env).result = Except.error e) ∧
      (∀ k : Nat, (k : Int) < s.num_attempts →
        (∀ i, i < k →
          ∃ e, env.validate_result i = some e ∧ isTransientExc e = true) →
        env.validate_result k = none →
        (init s env).probed = true ∧ (init s env).result = Except.ok ())) := by
  refine ⟨?_, ?_, ?_⟩
  · intro hrank
    unfold init
    by_cases hdb : s.is_dbfs = false
    · rw [if_pos hdb, leader_probe_nonleader s.num_attempts env s.path hrank]
      exact ⟨rfl, rfl⟩
    · by_cases hml : strStartsWith s.path MLFLOW_DBFS_PATH_START = false
      · rw [if_neg hdb, if_pos hml]
        exact ⟨rfl, rfl⟩
      · rw [if_neg hdb, if_neg hml, leader_probe_nonleader _ env _ hrank]
        exact ⟨rfl, rfl⟩
  · intro hdb hml
    unfold init
    rw [if_neg (by simp [hdb]), if_pos hml]
    exact ⟨rfl, rfl⟩
  · intro hrank helig
    have hinit := init_eq_leader_probe s env helig
    constructor
    · intro e he hall hna
      rw [hinit, leader_probe_fail s.num_attempts env _ e hrank he hall hna]
      exact ⟨rfl, rfl⟩
    · intro k hk hfail hok
      rw [hinit,
        leader_probe_ok_within s.num_attempts env _ k hrank hk hfail hok]
      exact ⟨rfl, rfl⟩

/-- C8 counterexample: a dbfs remote folder outside the MLFlow tracking
prefix on the leader, with a credential probe that would fail every attempt
with a transient error; yet `init()` returns normally and never probes. -/
theorem init_skips_probe_counterexample :
    (init sUC envAllFail).probed = false ∧
    (init sUC envAllFail).result = Except.ok () :=
  ⟨rfl, rfl⟩

theorem init_leader_probe_spec_witness :
    (init (mkState []) envAllFail).result
        = Except.error (Exc.objectStoreTransientError 0) ∧
    (init (mkState []) envAllFail).probed = true :=
  ⟨(((init_leader_probe_spec (mkState []) envAllFail).2.2 rfl (Or.inl rfl)).1
      (Exc.objectStoreTransientError 0) rfl (fun _ => rfl) (by decide)).2,
   (((init_leader_probe_spec (mkState []) envAllFail).2.2 rfl (Or.inl rfl)).1
      (Exc.objectStoreTransientError 0) rfl (fun _ => rfl) (by decide)).1⟩

